import Mathlib

/-!
Shallow embedding of the AutoNyan event-payload parsing and classification
core: src/shared/parameter-parser.ts and the classification module
(parseGeminiResponse / classifyWithGemini), together with proofs of the
behavioural properties of these functions.
-/

namespace AutoNyan

/-- JSON-like values produced by the JavaScript runtime's JSON.parse.
Numbers are modelled as rationals (the values occurring in this code base,
such as confidence scores, are exactly representable; NaN and infinities are
out of scope). Objects are ordered key-value lists as produced by the parser. -/
inductive JsonValue where
  | str (s : String)
  | num (q : Rat)
  | bool (b : Bool)
  | null
  | arr (elems : List JsonValue)
  | obj (fields : List (String × JsonValue))

/-- Last binding for a key in an object's field list: JSON.parse keeps the
last duplicate key, so property access sees the last binding. -/
def lookupLast (k : String) : List (String × JsonValue) → Option JsonValue
  | [] => none
  | p :: rest =>
    match lookupLast k rest with
    | some r => some r
    | none => if p.1 = k then some p.2 else none

/-- Property access `v.k` on a parsed JSON value; any non-object value has no
such property, giving `none` (JavaScript `undefined`). -/
def getField (v : JsonValue) (k : String) : Option JsonValue :=
  match v with
  | .obj fields => lookupLast k fields
  | _ => none

/-- Bytes of a string under the model that identifies characters with their
code points; exact for ASCII data, which is all the concrete data handled
here (UTF-8 is the identity on code points below 128). -/
def strToBytes (s : String) : List Nat := s.data.map Char.toNat

def bytesToStr (bs : List Nat) : String := String.mk (bs.map Char.ofNat)

def b64Alphabet : List Char :=
  "ABCDEFGHIJKLMNOPQRSTUVWXYZabcdefghijklmnopqrstuvwxyz0123456789+/".data

def b64Char (n : Nat) : Char := b64Alphabet.getD n (Char.ofNat 65)

def padChar : Char := Char.ofNat 61

/-- Standard base64 of a byte list, with padding, as produced by Node's
Buffer base64 encoding. -/
def base64EncodeBytes : List Nat → List Char
  | [] => []
  | [b1] => [b64Char (b1 / 4), b64Char (b1 % 4 * 16), padChar, padChar]
  | [b1, b2] =>
    [b64Char (b1 / 4), b64Char (b1 % 4 * 16 + b2 / 16), b64Char (b2 % 16 * 4), padChar]
  | b1 :: b2 :: b3 :: rest =>
    b64Char (b1 / 4) :: b64Char (b1 % 4 * 16 + b2 / 16) ::
      b64Char (b2 % 16 * 4 + b3 / 64) :: b64Char (b3 % 64) :: base64EncodeBytes rest

def base64EncodeStr (s : String) : String :=
  String.mk (base64EncodeBytes (strToBytes s))

/-- Value of one base64 alphabet character; `none` for every character outside
the alphabet (including padding), which Node's lenient decoder skips. -/
def b64Val (c : Char) : Option Nat :=
  let i := b64Alphabet.indexOf c
  if i < 64 then some i else none

/-- Reassemble bytes from base64 sextets; a trailing group of 2 or 3 sextets
yields 1 or 2 bytes, and a single leftover sextet yields nothing. -/
def sextetsToBytes : List Nat → List Nat
  | a :: b :: c :: d :: rest =>
    (a * 4 + b / 16) :: (b % 16 * 16 + c / 4) :: (c % 4 * 64 + d) :: sextetsToBytes rest
  | [a, b, c] => [a * 4 + b / 16, b % 16 * 16 + c / 4]
  | [a, b] => [a * 4 + b / 16]
  | _ => []

/-- Lenient base64 decoding as performed by Node's Buffer: characters outside
the base64 alphabet are ignored and the remaining sextets are packed into
bytes. The decoder is total; it never fails. -/
def base64DecodeLenient (s : String) : List Nat :=
  sextetsToBytes (s.data.filterMap b64Val)

/-- Modelled from Node's documented Buffer semantics: constructing a Buffer
from a string with base64 encoding decodes leniently and never throws, so the
optional result is always `some`. -/
def bufferFromBase64? (s : String) : Option (List Nat) :=
  some (base64DecodeLenient s)

/-- The two error classes of parameter-parser.ts: ValidationError (with an
optional offending-field name) and ParameterParsingError. -/
inductive ParserError where
  | validationError (message : String) (field : Option String)
  | parameterParsingError (message : String)
deriving DecidableEq

/-- Runtime value of CloudEvent.data, classified the way the source
discriminates it with `typeof`: "string" for `str`, "object" for any non-null
object — including arrays, so `object` carries any structured JsonValue —
"number" and "boolean" for the scalars, and JavaScript null (whose typeof is
also "object"). An `undefined` field is modelled by `Option.none` one level
up, in the event structure. -/
inductive RawData where
  | str (s : String)
  | object (v : JsonValue)
  | num (q : Rat)
  | bool (b : Bool)
  | null

/-- JavaScript truthiness of the payload, as tested by the source's negated
data check: null, the empty string, 0 and false are falsy; every object
(arrays and empty objects included) is truthy. -/
def RawData.isFalsy : RawData → Bool
  | .str s => s = ""
  | .num q => q = 0
  | .bool b => b = false
  | .object _ => false
  | .null => true

/-- Result of the JavaScript `typeof` operator on the payload. -/
def RawData.typeofName : RawData → String
  | .str _ => "string"
  | .object _ => "object"
  | .num _ => "number"
  | .bool _ => "boolean"
  | .null => "object"

structure CloudEvent where
  data : Option RawData
  source : Option String

structure PubSubMessage where
  data : JsonValue
  attributes : Option (List (String × String))

/-- Attributes derived from the event source: the conditional tests the
source's truthiness, so an absent or empty source yields no attributes. -/
def attrsOf (source : Option String) : Option (List (String × String)) :=
  match source with
  | some s => if s = "" then none else some [("source", s)]
  | none => none

/-- Decoding step for a string payload: base64-decode to UTF-8 text, falling
back to the original string if the decode were to fail. The fallback arm is
dead code because Node's lenient decoder is total. -/
def decodeStep (s : String) : String :=
  match bufferFromBase64? s with
  | some bs => bytesToStr bs
  | none => s

/-- Shallow embedding of parsePubSubEvent. The JavaScript builtin JSON.parse
is passed in as `jsonParse`, returning `none` exactly where the builtin
throws a SyntaxError. The source's trailing catch-all wrap is unreachable
because every error raised in the body is already one of the two ParserError
kinds and is re-thrown unchanged. -/
def parsePubSubEvent (jsonParse : String → Option JsonValue)
    (cloudEvent : Option CloudEvent) : Except ParserError PubSubMessage :=
  match cloudEvent with
  | none => .error (.validationError "CloudEvent is required" none)
  | some ev =>
    match ev.data with
    | none => .error (.validationError "CloudEvent data is required" none)
    | some rawData =>
      if rawData.isFalsy then
        .error (.validationError "CloudEvent data is required" none)
      else
        match rawData with
        | .str s =>
          let decodedData := decodeStep s
          match jsonParse decodedData with
          | none =>
            .error (.parameterParsingError "Failed to parse JSON data from PubSub message")
          | some parsedData => .ok ⟨parsedData, attrsOf ev.source⟩
        | .object v => .ok ⟨v, attrsOf ev.source⟩
        | other =>
          .error (.validationError ("Unsupported data type: " ++ other.typeofName) none)

/-- Field-missing test of validateRequiredFields: the value is strictly
undefined (no binding), null, or the empty string. Zero and false count as
present. -/
def isMissingField (data : List (String × JsonValue)) (field : String) : Bool :=
  match lookupLast field data with
  | none => true
  | some .null => true
  | some (.str s) => s = ""
  | some _ => false

/-- Shallow embedding of validateRequiredFields: filters the required list
for missing fields and, when any are missing, raises a ValidationError whose
message comma-joins all of them and whose field is the first. -/
def validateRequiredFields (data : List (String × JsonValue))
    (requiredFields : List String) : Except ParserError Unit :=
  let missingFields := requiredFields.filter (isMissingField data)
  if missingFields.isEmpty then .ok ()
  else
    .error (.validationError
      ("Missing required fields: " ++ String.intercalate ", " missingFields)
      missingFields.head?)

/-- JavaScript or-else on optional environment strings: an empty string is
falsy and falls through to the second lookup. -/
def jsOrString (a b : Option String) : Option String :=
  match a with
  | some s => if s = "" then b else some s
  | none => b

def truthyStr : Option String → Bool
  | some s => s ≠ ""
  | none => false

/-- Shallow embedding of getEnvironmentVariables over an explicit environment
store. Entries are visited in the given order; each name is looked up
directly and then under the GOOGLE_CLOUD_ prefix; required entries that
resolve to nothing are collected as missing, and any missing entry fails the
whole call. -/
def getEnvironmentVariables (env : String → Option String)
    (envVars : List (String × Bool)) : Except ParserError (List (String × String)) :=
  let resolved := envVars.map
    (fun p => (p.1, p.2, jsOrString (env p.1) (env ("GOOGLE_CLOUD_" ++ p.1))))
  let missing := (resolved.filter (fun e => !truthyStr e.2.2 && e.2.1)).map (fun e => e.1)
  let result := resolved.filterMap (fun e =>
    match e.2.2 with
    | some v => if v = "" then none else some (e.1, v)
    | none => none)
  if missing.isEmpty then .ok result
  else
    .error (.validationError
      ("Missing required environment variables: " ++ String.intercalate ", " missing)
      none)

/-- A JavaScript thrown value as discriminated by createErrorResponse: one of
the two library error classes, a generic Error instance carrying its
constructor name, or any non-Error plain value. -/
inductive Thrown where
  | parameterParsingError (message : String)
  | validationError (message : String) (field : Option String)
  | genericError (ctorName : String) (message : String)
  | plainValue (v : JsonValue)

structure ErrorResponse where
  error : String
  context : String
  type : String
deriving DecidableEq

/-- Shallow embedding of createErrorResponse; a Lean function is total by
construction, matching the source, whose branches cover every input. -/
def createErrorResponse (error : Thrown) (context : String) : ErrorResponse :=
  match error with
  | .parameterParsingError m => ⟨m, context, "ParameterParsingError"⟩
  | .validationError m _ => ⟨m, context, "ValidationError"⟩
  | .genericError n m => ⟨m, context, n⟩
  | .plainValue _ => ⟨"Unknown error occurred", context, "UnknownError"⟩

structure CategoryFolder where
  id : String
  name : String

structure GeminiResponse where
  category : String
  confidence : Rat
  reasoning : String
deriving DecidableEq

structure ClassificationResult where
  categoryName : Option String
  categoryFolderId : Option String
  confidence : Rat
  reasoning : String
deriving DecidableEq

/-- Failures of parseGeminiResponse: the two explicit Error throws of the
source, plus the SyntaxError that JSON.parse raises on malformed text (whose
runtime-generated message is not modelled). -/
inductive GeminiParseError where
  | noJsonObject
  | jsonSyntax
  | invalidStructure
deriving DecidableEq

/-- Message carried by the thrown error; the SyntaxError message is
runtime-generated and represented by a fixed placeholder. -/
def GeminiParseError.thrownMessage : GeminiParseError → String
  | .noJsonObject => "No JSON object found in Gemini response"
  | .jsonSyntax => "SyntaxError"
  | .invalidStructure => "Invalid response structure from Gemini"

/-- JavaScript regex whitespace class, by code point. -/
def isJsSpace (c : Char) : Bool :=
  c.toNat ∈ [9, 10, 11, 12, 13, 32, 160, 5760, 8192, 8193, 8194, 8195, 8196,
    8197, 8198, 8199, 8200, 8201, 8202, 8232, 8233, 8239, 8287, 12288, 65279]

def trimJs (cs : List Char) : List Char :=
  ((cs.dropWhile isJsSpace).reverse.dropWhile isJsSpace).reverse

/-- Index of the first occurrence of `needle` at or after the current
position while walking down `hay`, mirroring the left-to-right
starting-position scan of a regex match; `i` is the index of the head. -/
def subIdx (needle : List Char) : List Char → Nat → Option Nat
  | [], i => if needle.isPrefixOf ([] : List Char) then some i else none
  | c :: rest, i =>
    if needle.isPrefixOf (c :: rest) then some i else subIdx needle rest (i + 1)

def lastIdxOf (c : Char) : List Char → Option Nat
  | [] => none
  | x :: rest =>
    match lastIdxOf c rest with
    | some i => some (i + 1)
    | none => if x = c then some 0 else none

def fenceOpen : List Char := "```json".data

def fenceClose : List Char := "```".data

/-- Interior of the first json code fence. The source regex has a lazy body
anchored by greedy whitespace classes on both sides, which matches everything
between the first occurrence of the opening marker and the next closing
marker, with surrounding regex whitespace stripped from the captured group.
If the opening marker never occurs, or no closing marker follows it, the
regex fails as a whole (a later opening marker would itself supply a closing
triple of backticks for the first one, so an unclosed first marker implies no
match anywhere). -/
def extractJsonFence (s : String) : Option String :=
  match subIdx fenceOpen s.data 0 with
  | none => none
  | some p =>
    let rest := s.data.drop (p + 7)
    match subIdx fenceClose rest 0 with
    | none => none
    | some r => some (String.mk (trimJs (rest.take r)))

def lbrace : Char := Char.ofNat 123

def rbrace : Char := Char.ofNat 125

/-- Greedy brace span of the source regex: from the first opening brace to
the last closing brace, provided that closing brace comes strictly after the
opening one; otherwise there is no match. -/
def braceMatch (s : String) : Option String :=
  match subIdx [lbrace] s.data 0, lastIdxOf rbrace s.data with
  | some f, some l =>
    if f < l then some (String.mk ((s.data.drop f).take (l - f + 1))) else none
  | _, _ => none

/-- Extraction step of parseGeminiResponse: the interior of the json code
fence when the fence regex matches, otherwise the whole response text. -/
def geminiJsonText (responseText : String) : String :=
  match extractJsonFence responseText with
  | some interior => interior
  | none => responseText

/-- Shallow embedding of parseGeminiResponse. The JavaScript builtin
JSON.parse is passed in as `jsonParse`, returning `none` exactly where the
builtin throws. The confidence clamp is the source's max/min composition. -/
def parseGeminiResponse (jsonParse : String → Option JsonValue)
    (responseText : String) : Except GeminiParseError GeminiResponse :=
  let jsonText := geminiJsonText responseText
  match braceMatch jsonText with
  | none => .error .noJsonObject
  | some objText =>
    match jsonParse objText with
    | none => .error .jsonSyntax
    | some parsed =>
      match getField parsed "category", getField parsed "confidence",
          getField parsed "reasoning" with
      | some (.str category), some (.num confidence), some (.str reasoning) =>
        .ok ⟨category, max 0 (min 1 confidence), reasoning⟩
      | _, _, _ => .error .invalidStructure

def UNCATEGORIZED : String := "UNCATEGORIZED"

/-- JavaScript or-null on the optional matched folder's id: an empty id
string is falsy and collapses to null. -/
def idOrNull : Option CategoryFolder → Option String
  | some c => if c.id = "" then none else some c.id
  | none => none

/-- Shallow embedding of classifyWithGemini from the point where the external
model call has produced a response text: prompt construction and the silent
text truncation happen before this point and do not affect the result, so the
response text is taken as input. -/
def classifyWithGemini (jsonParse : String → Option JsonValue)
    (categories : List CategoryFolder) (responseText : String) :
    Except GeminiParseError ClassificationResult :=
  match parseGeminiResponse jsonParse responseText with
  | .error e => .error e
  | .ok parsed =>
    let categoryFolder := categories.find? (fun c => c.name == parsed.category)
    if categoryFolder.isNone && parsed.category != UNCATEGORIZED then
      .ok ⟨none, none, 0,
        "Category \"" ++ parsed.category ++ "\" not found in available folders"⟩
    else
      .ok ⟨(if categoryFolder.isSome then some parsed.category else none),
        idOrNull categoryFolder, parsed.confidence, parsed.reasoning⟩

/-! Concrete fixtures used by the closed instances below. Each fixture
standing in for JSON.parse is faithful to the builtin on every string it is
applied to in those instances. -/

def xA : JsonValue := .obj [("a", .num 1)]

def jsonTextA : String := "\x7b\"a\":1\x7d"

/-- Fixture for JSON.parse: parses the text of `xA` and rejects everything
else — in particular the one-character string "k" produced by leniently
base64-decoding that text, which is indeed not valid JSON. -/
def jsonParseFix : String → Option JsonValue := fun s =>
  if s = jsonTextA then some xA else none

def nonsenseText : String :=
  "\x7b\"category\":\"Nonsense\",\"confidence\":0.9,\"reasoning\":\"r\"\x7d"

def nonsenseVal : JsonValue :=
  .obj [("category", .str "Nonsense"), ("confidence", .num 0.9),
    ("reasoning", .str "r")]

def invoicesText : String :=
  "\x7b\"category\":\"Invoices\",\"confidence\":1.5,\"reasoning\":\"r\"\x7d"

def invoicesVal : JsonValue :=
  .obj [("category", .str "Invoices"), ("confidence", .num 1.5),
    ("reasoning", .str "r")]

def shapelessText : String := "\x7b\"category\":7\x7d"

def shapelessVal : JsonValue := .obj [("category", .num 7)]

/-- Fixture for JSON.parse restricted to the concrete classification
response texts below, faithful to the builtin on each of them. -/
def jsonParseFixGemini : String → Option JsonValue := fun s =>
  if s = nonsenseText then some nonsenseVal
  else if s = invoicesText then some invoicesVal
  else if s = shapelessText then some shapelessVal
  else none

/-! Helper lemmas. -/

theorem b64Val_b64Char : ∀ n, n < 64 → b64Val (b64Char n) = some n := by decide

theorem b64Val_padChar : b64Val padChar = none := by decide

/-- Decoding the base64 encoding of a byte list leniently recovers the bytes. -/
theorem sextets_roundtrip : ∀ bs : List Nat, (∀ b ∈ bs, b < 256) →
    sextetsToBytes ((base64EncodeBytes bs).filterMap b64Val) = bs
  | [], _ => rfl
  | [b1], h => by
    have h1 : b1 < 256 := h b1 (by simp)
    have e1 := b64Val_b64Char (b1 / 4) (by omega)
    have e2 := b64Val_b64Char (b1 % 4 * 16) (by omega)
    simp only [base64EncodeBytes, List.filterMap_cons, e1, e2, b64Val_padChar,
      List.filterMap_nil, sextetsToBytes, List.cons.injEq, and_true]
    omega
  | [b1, b2], h => by
    have h1 : b1 < 256 := h b1 (by simp)
    have h2 : b2 < 256 := h b2 (by simp)
    have e1 := b64Val_b64Char (b1 / 4) (by omega)
    have e2 := b64Val_b64Char (b1 % 4 * 16 + b2 / 16) (by omega)
    have e3 := b64Val_b64Char (b2 % 16 * 4) (by omega)
    simp only [base64EncodeBytes, List.filterMap_cons, e1, e2, e3, b64Val_padChar,
      List.filterMap_nil, sextetsToBytes, List.cons.injEq, and_true]
    exact ⟨by omega, by omega⟩
  | b1 :: b2 :: b3 :: rest, h => by
    have h1 : b1 < 256 := h b1 (by simp)
    have h2 : b2 < 256 := h b2 (by simp)
    have h3 : b3 < 256 := h b3 (by simp)
    have e1 := b64Val_b64Char (b1 / 4) (by omega)
    have e2 := b64Val_b64Char (b1 % 4 * 16 + b2 / 16) (by omega)
    have e3 := b64Val_b64Char (b2 % 16 * 4 + b3 / 64) (by omega)
    have e4 := b64Val_b64Char (b3 % 64) (by omega)
    have ih := sextets_roundtrip rest (fun b hb => h b (by simp [hb]))
    simp only [base64EncodeBytes, List.filterMap_cons, e1, e2, e3, e4,
      sextetsToBytes, ih, List.cons.injEq, and_true]
    exact ⟨by omega, by omega, by omega⟩

theorem charOfNat_toNat (c : Char) (h : c.toNat < 128) : Char.ofNat c.toNat = c := by
  have hv : Nat.isValidChar c.toNat := Or.inl (by omega)
  unfold Char.ofNat
  rw [dif_pos hv]
  exact Char.eq_of_val_eq (UInt32.eq_of_toBitVec_eq (BitVec.eq_of_toNat_eq (by
    simp [Char.ofNatAux, Char.toNat, UInt32.toNat])))

theorem bytesToStr_strToBytes (s : String) (h : ∀ c ∈ s.data, c.toNat < 128) :
    bytesToStr (strToBytes s) = s := by
  obtain ⟨cs⟩ := s
  unfold bytesToStr strToBytes
  rw [List.map_map]
  have heq : cs.map (Char.ofNat ∘ Char.toNat) = cs.map id := by
    apply List.map_congr_left
    intro c hc
    exact charOfNat_toNat c (h c hc)
  rw [heq, List.map_id]

/-- Lenient decoding after the decode step inverts the base64 encoding of an
ASCII string. -/
theorem decodeStep_base64EncodeStr (s : String) (h : ∀ c ∈ s.data, c.toNat < 128) :
    decodeStep (base64EncodeStr s) = s := by
  have hb : ∀ b ∈ strToBytes s, b < 256 := by
    intro b hb
    obtain ⟨c, hc, rfl⟩ := List.mem_map.mp hb
    exact lt_of_lt_of_le (h c hc) (by norm_num)
  unfold decodeStep bufferFromBase64? base64DecodeLenient base64EncodeStr
  rw [show (String.mk (base64EncodeBytes (strToBytes s))).data
      = base64EncodeBytes (strToBytes s) from rfl]
  rw [sextets_roundtrip _ hb]
  exact bytesToStr_strToBytes s h

theorem base64EncodeStr_ne_empty (s : String) (h : s ≠ "") :
    base64EncodeStr s ≠ "" := by
  obtain ⟨cs⟩ := s
  match cs with
  | [] => exact absurd rfl h
  | [b1] => simp [base64EncodeStr, strToBytes, base64EncodeBytes, String.ext_iff]
  | [b1, b2] => simp [base64EncodeStr, strToBytes, base64EncodeBytes, String.ext_iff]
  | b1 :: b2 :: b3 :: rest =>
    simp [base64EncodeStr, strToBytes, base64EncodeBytes, String.ext_iff]

/-- C2 (amended): parsing an envelope whose string payload is the base64
encoding of a non-empty ASCII JSON text for x succeeds and returns x as
data, and parsing an envelope whose payload is already a structured record
returns that record unchanged as data; the raw-text clause of the original
claim does not hold (see the counterexample), because a string payload is
always leniently base64-decoded before the JSON parse. A JSON text for x is
characterized by the parse function mapping it to x. -/
theorem parsePubSubEvent_base64_and_object (jsonParse : String → Option JsonValue)
    (x : JsonValue) (s : String) (source : Option String)
    (hne : s ≠ "") (hascii : ∀ c ∈ s.data, c.toNat < 128)
    (hjp : jsonParse s = some x) :
    parsePubSubEvent jsonParse (some ⟨some (.str (base64EncodeStr s)), source⟩) =
      .ok ⟨x, attrsOf source⟩ ∧
    parsePubSubEvent jsonParse (some ⟨some (.object x), source⟩) =
      .ok ⟨x, attrsOf source⟩ := by
  constructor
  · have henc := base64EncodeStr_ne_empty s hne
    have hdec := decodeStep_base64EncodeStr s hascii
    unfold parsePubSubEvent
    simp only [RawData.isFalsy, henc, decide_eq_true_eq, if_neg henc]
    rw [hdec, hjp]
    simp
  · rfl

/-- C2 witness: the base64-encoded JSON text of xA parses back to xA with the
source carried as an attribute, and an object payload is passed through. -/
theorem parsePubSubEvent_base64_and_object_witness :
    parsePubSubEvent jsonParseFix
        (some ⟨some (.str (base64EncodeStr jsonTextA)), some "test-source"⟩) =
      .ok ⟨xA, some [("source", "test-source")]⟩ :=
  (parsePubSubEvent_base64_and_object jsonParseFix xA jsonTextA (some "test-source")
    (by decide) (by decide) (by rfl)).1

/-- C2 counterexample: an envelope whose payload is the raw JSON text of xA
is NOT parsed back to xA, contrary to the claim's raw-text clause: the
lenient base64 decode mangles the text to the one-character string "k",
whose JSON parse fails, so the parsing error is raised. The fixture
jsonParseFix agrees with the builtin JSON.parse on both strings involved. -/
theorem parsePubSubEvent_raw_json_counterexample :
    parsePubSubEvent jsonParseFix (some ⟨some (.str jsonTextA), none⟩) =
      .error (.parameterParsingError "Failed to parse JSON data from PubSub message") := by
  rfl

/-- C3 counterexample: a top-level array payload is not rejected, contrary to
the claim: JavaScript typeof classifies arrays as "object", so the parser
returns the array unchanged as data instead of failing with a validation
error naming the type. -/
theorem parsePubSubEvent_array_counterexample :
    parsePubSubEvent jsonParseFix (some ⟨some (.object (.arr [.num 1])), none⟩) =
      .ok ⟨.arr [.num 1], none⟩ := rfl

/-- C3 (amended): nonzero numbers and the boolean true fail with a
validation failure naming the typeof of the payload; zero and false are
falsy and fail the earlier data-presence check instead; and a top-level
array is returned as data, because typeof reports "object" for arrays. -/
theorem parsePubSubEvent_unsupported_types (jsonParse : String → Option JsonValue)
    (source : Option String) :
    (∀ q : Rat, q ≠ 0 →
      parsePubSubEvent jsonParse (some ⟨some (.num q), source⟩) =
        .error (.validationError "Unsupported data type: number" none)) ∧
    (parsePubSubEvent jsonParse (some ⟨some (.bool true), source⟩) =
      .error (.validationError "Unsupported data type: boolean" none)) ∧
    (parsePubSubEvent jsonParse (some ⟨some (.num 0), source⟩) =
      .error (.validationError "CloudEvent data is required" none)) ∧
    (parsePubSubEvent jsonParse (some ⟨some (.bool false), source⟩) =
      .error (.validationError "CloudEvent data is required" none)) ∧
    (∀ v : JsonValue,
      parsePubSubEvent jsonParse (some ⟨some (.object v), source⟩) =
        .ok ⟨v, attrsOf source⟩) := by
  refine ⟨?_, rfl, rfl, rfl, fun v => rfl⟩
  intro q hq
  unfold parsePubSubEvent
  simp [RawData.isFalsy, hq, RawData.typeofName]

/-- C3 witness: the amended claim at the nonzero number 5. -/
theorem parsePubSubEvent_unsupported_types_witness :
    parsePubSubEvent jsonParseFix (some ⟨some (.num 5), none⟩) =
      .error (.validationError "Unsupported data type: number" none) :=
  (parsePubSubEvent_unsupported_types jsonParseFix none).1 5 (by norm_num)

/-- C8 counterexample: the empty-string payload is a string that is not valid
JSON after decoding, yet the parser raises the VALIDATION kind, not the
parsing kind as the claim requires: the empty string is falsy and trips the
data-presence check before any decode or parse. -/
theorem parsePubSubEvent_empty_string_counterexample :
    parsePubSubEvent jsonParseFix (some ⟨some (.str ""), none⟩) =
      .error (.validationError "CloudEvent data is required" none) := rfl

/-- C8 (amended): for every non-empty string payload whose decoded text is
not valid JSON, the parser fails with the parsing kind (the empty string is
falsy and fails the data-presence validation instead); and every error
escaping the parser is one of exactly two kinds, validation or parameter
parsing, so callers can branch on the kind. -/
theorem parsePubSubEvent_error_taxonomy (jsonParse : String → Option JsonValue)
    (s : String) (source : Option String) :
    (s ≠ "" → jsonParse (decodeStep s) = none →
      parsePubSubEvent jsonParse (some ⟨some (.str s), source⟩) =
        .error (.parameterParsingError "Failed to parse JSON data from PubSub message")) ∧
    (∀ cloudEvent e, parsePubSubEvent jsonParse cloudEvent = .error e →
      (∃ m f, e = .validationError m f) ∨ (∃ m, e = .parameterParsingError m)) := by
  constructor
  · intro hne hjp
    unfold parsePubSubEvent
    simp only [RawData.isFalsy, decide_eq_true_eq, if_neg hne]
    rw [hjp]
  · intro cloudEvent e _
    cases e with
    | validationError m f => exact Or.inl ⟨m, f, rfl⟩
    | parameterParsingError m => exact Or.inr ⟨m, rfl⟩

/-- C8 witness: a non-empty non-JSON payload ("ab" decodes leniently to the
non-JSON text "i") raises the parsing kind. -/
theorem parsePubSubEvent_error_taxonomy_witness :
    parsePubSubEvent (fun _ => none) (some ⟨some (.str "ab"), none⟩) =
      .error (.parameterParsingError "Failed to parse JSON data from PubSub message") :=
  (parsePubSubEvent_error_taxonomy (fun _ => none) "ab" none).1 (by decide) rfl

/-- C10: the base64 decode of a string payload never fails — Node's lenient
decoder is total — so the catch fallback to the raw string is unreachable,
and every truthy string payload is JSON-parsed from the lenient base64
decoding of the payload, never from the raw text itself. -/
theorem decodeStep_always_lenient (s : String) :
    bufferFromBase64? s = some (base64DecodeLenient s) ∧
    decodeStep s = bytesToStr (base64DecodeLenient s) ∧
    (∀ jsonParse : String → Option JsonValue, ∀ source : Option String, s ≠ "" →
      parsePubSubEvent jsonParse (some ⟨some (.str s), source⟩) =
        (match jsonParse (bytesToStr (base64DecodeLenient s)) with
         | none =>
           .error (.parameterParsingError "Failed to parse JSON data from PubSub message")
         | some parsedData => .ok ⟨parsedData, attrsOf source⟩)) := by
  refine ⟨rfl, rfl, ?_⟩
  intro jsonParse source hne
  unfold parsePubSubEvent
  simp only [RawData.isFalsy, decide_eq_true_eq, if_neg hne]
  rfl

/-- C10 witness: a concrete truthy string payload is parsed from its lenient
decoding. -/
theorem decodeStep_always_lenient_witness :
    parsePubSubEvent (fun _ => some .null) (some ⟨some (.str "abc"), none⟩) =
      .ok ⟨.null, none⟩ :=
  (decodeStep_always_lenient "abc").2.2 (fun _ => some .null) none (by decide)

/-- Shape analysis of parseGeminiResponse once a brace-delimited object text
has been found and parsed: either the object has a string category, numeric
confidence and string reasoning and parsing succeeds with the clamped
confidence, or some field fails its type check and the invalid-structure
error is raised. -/
theorem parseGeminiResponse_cases (jsonParse : String → Option JsonValue)
    (text objText : String) (v : JsonValue)
    (hb : braceMatch (geminiJsonText text) = some objText)
    (hjp : jsonParse objText = some v) :
    (∃ c q reas, getField v "category" = some (.str c) ∧
      getField v "confidence" = some (.num q) ∧
      getField v "reasoning" = some (.str reas) ∧
      parseGeminiResponse jsonParse text = .ok ⟨c, max 0 (min 1 q), reas⟩) ∨
    (((¬ ∃ c, getField v "category" = some (.str c)) ∨
      (¬ ∃ q, getField v "confidence" = some (.num q)) ∨
      (¬ ∃ reas, getField v "reasoning" = some (.str reas))) ∧
      parseGeminiResponse jsonParse text = .error .invalidStructure) := by
  have key : parseGeminiResponse jsonParse text =
      (match getField v "category", getField v "confidence",
          getField v "reasoning" with
        | some (.str category), some (.num confidence), some (.str reasoning) =>
          .ok ⟨category, max 0 (min 1 confidence), reasoning⟩
        | _, _, _ => .error .invalidStructure) := by
    simp only [parseGeminiResponse, hb, hjp]
  rw [key]
  rcases h1 : getField v "category" with _ | c1
  · exact Or.inr ⟨Or.inl (by simp [h1]), rfl⟩
  rcases c1 with s1 | q1 | b1 | _ | a1 | o1
  · rcases h2 : getField v "confidence" with _ | c2
    · exact Or.inr ⟨Or.inr (Or.inl (by simp [h2])), rfl⟩
    rcases c2 with s2 | q2 | b2 | _ | a2 | o2
    · exact Or.inr ⟨Or.inr (Or.inl (by simp [h2])), rfl⟩
    · rcases h3 : getField v "reasoning" with _ | c3
      · exact Or.inr ⟨Or.inr (Or.inr (by simp [h3])), rfl⟩
      rcases c3 with s3 | q3 | b3 | _ | a3 | o3
      · exact Or.inl ⟨s1, q2, s3, rfl, rfl, rfl, rfl⟩
      all_goals exact Or.inr ⟨Or.inr (Or.inr (by simp [h3])), rfl⟩
    all_goals exact Or.inr ⟨Or.inr (Or.inl (by simp [h2])), rfl⟩
  all_goals exact Or.inr ⟨Or.inl (by simp [h1]), rfl⟩

/-- C1: when the parsed category matches no candidate name (the match is
case-sensitive string equality) and differs from the UNCATEGORIZED sentinel,
classification degrades to no category, no folder, confidence 0 and a
diagnostic reasoning naming the unmatched text; when the parsed category
equals the sentinel while matching no candidate, the category and folder are
none and the model's clamped confidence and reasoning are preserved. -/
theorem classifyWithGemini_no_match (jsonParse : String → Option JsonValue)
    (categories : List CategoryFolder) (responseText : String)
    (parsed : GeminiResponse)
    (hparse : parseGeminiResponse jsonParse responseText = .ok parsed)
    (hfind : categories.find? (fun c => c.name == parsed.category) = none) :
    (parsed.category ≠ UNCATEGORIZED →
      classifyWithGemini jsonParse categories responseText =
        .ok ⟨none, none, 0,
          "Category \"" ++ parsed.category ++ "\" not found in available folders"⟩) ∧
    (parsed.category = UNCATEGORIZED →
      classifyWithGemini jsonParse categories responseText =
        .ok ⟨none, none, parsed.confidence, parsed.reasoning⟩) := by
  constructor
  · intro hne
    simp [classifyWithGemini, hparse, hfind, hne, idOrNull]
  · intro heq
    rw [heq] at hfind
    simp [classifyWithGemini, hparse, hfind, heq, idOrNull]

/-- C1 witness: the degraded fallback at the concrete unmatched category
"Nonsense" against the candidate folder list [Invoices]. -/
theorem classifyWithGemini_no_match_witness :
    classifyWithGemini jsonParseFixGemini [⟨"f1", "Invoices"⟩] nonsenseText =
      .ok ⟨none, none, 0, "Category \"Nonsense\" not found in available folders"⟩ :=
  (classifyWithGemini_no_match jsonParseFixGemini [⟨"f1", "Invoices"⟩]
    nonsenseText ⟨"Nonsense", max 0 (min 1 0.9), "r"⟩ (by rfl) (by rfl)).1 (by decide)

/-- C4: the classification response parser takes the interior of a json
fence when the fence regex matches, else the whole text; within that it
takes the greedy first-brace-to-last-brace substring; when no such substring
exists it fails with the no-JSON-object parsing failure; and a parsed object
lacking a string category, a numeric confidence or a string reasoning fails
with the invalid-structure parsing failure, with no type coercion. -/
theorem parseGeminiResponse_extraction (jsonParse : String → Option JsonValue)
    (text : String) :
    (∀ interior, extractJsonFence text = some interior →
      geminiJsonText text = interior) ∧
    (extractJsonFence text = none → geminiJsonText text = text) ∧
    (braceMatch (geminiJsonText text) = none →
      parseGeminiResponse jsonParse text = .error .noJsonObject ∧
      GeminiParseError.noJsonObject.thrownMessage =
        "No JSON object found in Gemini response") ∧
    (∀ objText v, braceMatch (geminiJsonText text) = some objText →
      jsonParse objText = some v →
      ((¬ ∃ c, getField v "category" = some (.str c)) ∨
       (¬ ∃ q, getField v "confidence" = some (.num q)) ∨
       (¬ ∃ reas, getField v "reasoning" = some (.str reas)) →
        parseGeminiResponse jsonParse text = .error .invalidStructure ∧
        GeminiParseError.invalidStructure.thrownMessage =
          "Invalid response structure from Gemini")) := by
  refine ⟨?_, ?_, ?_, ?_⟩
  · intro interior h
    unfold geminiJsonText
    rw [h]
  · intro h
    unfold geminiJsonText
    rw [h]
  · intro hb
    refine ⟨?_, rfl⟩
    simp [parseGeminiResponse, hb]
  · intro objText v hb hjp hbad
    refine ⟨?_, rfl⟩
    rcases parseGeminiResponse_cases jsonParse text objText v hb hjp with
      ⟨c, q, reas, h1, h2, h3, _⟩ | ⟨_, herr⟩
    · rcases hbad with hbc | hbq | hbr
      · exact absurd ⟨c, h1⟩ hbc
      · exact absurd ⟨q, h2⟩ hbq
      · exact absurd ⟨reas, h3⟩ hbr
    · exact herr

/-- C4 witness: a text with no brace-delimited object fails with the
no-JSON-object error, and an object whose category is a number (not a
string) fails with the invalid-structure error. -/
theorem parseGeminiResponse_extraction_witness :
    parseGeminiResponse jsonParseFixGemini "no json here" = .error .noJsonObject ∧
    parseGeminiResponse jsonParseFixGemini shapelessText = .error .invalidStructure :=
  ⟨((parseGeminiResponse_extraction jsonParseFixGemini "no json here").2.2.1
      (by rfl)).1,
   ((parseGeminiResponse_extraction jsonParseFixGemini shapelessText).2.2.2
      shapelessText shapelessVal (by rfl) (by rfl)
      (Or.inl (by
        rintro ⟨c, hc⟩
        have h7 : some (JsonValue.num 7) = some (JsonValue.str c) := hc
        injection h7 with h
        exact JsonValue.noConfusion h))).1⟩

/-- C5: every successfully parsed classification response has confidence in
the closed interval [0, 1]; the clamp lowers values above 1 to 1, raises
values below 0 to 0, and leaves in-range values unchanged. -/
theorem parseGeminiResponse_confidence_clamped (jsonParse : String → Option JsonValue)
    (text : String) :
    (∀ r, parseGeminiResponse jsonParse text = .ok r →
      0 ≤ r.confidence ∧ r.confidence ≤ 1) ∧
    (∀ objText v c q reas,
      braceMatch (geminiJsonText text) = some objText →
      jsonParse objText = some v →
      getField v "category" = some (.str c) →
      getField v "confidence" = some (.num q) →
      getField v "reasoning" = some (.str reas) →
      parseGeminiResponse jsonParse text = .ok ⟨c, max 0 (min 1 q), reas⟩ ∧
      (q < 0 → max 0 (min 1 q) = (0 : Rat)) ∧
      (1 < q → max 0 (min 1 q) = (1 : Rat)) ∧
      (0 ≤ q → q ≤ 1 → max 0 (min 1 q) = q)) := by
  constructor
  · intro r hr
    rcases hbm : braceMatch (geminiJsonText text) with _ | objText
    · have hx : parseGeminiResponse jsonParse text = .error .noJsonObject := by
        simp [parseGeminiResponse, hbm]
      rw [hx] at hr
      exact absurd hr (by simp)
    rcases hjp : jsonParse objText with _ | v
    · have hx : parseGeminiResponse jsonParse text = .error .jsonSyntax := by
        simp [parseGeminiResponse, hbm, hjp]
      rw [hx] at hr
      exact absurd hr (by simp)
    rcases parseGeminiResponse_cases jsonParse text objText v hbm hjp with
      ⟨c, q, reas, _, _, _, hok⟩ | ⟨_, herr⟩
    · rw [hok] at hr
      injection hr with h
      subst h
      exact ⟨le_max_left 0 _, max_le zero_le_one (min_le_left 1 q)⟩
    · rw [herr] at hr
      exact absurd hr (by simp)
  · intro objText v c q reas hbm hjp h1 h2 h3
    rcases parseGeminiResponse_cases jsonParse text objText v hbm hjp with
      ⟨c', q', reas', h1', h2', h3', hok⟩ | ⟨hbad, _⟩
    · have hc : c' = c := by
        have := h1'.symm.trans h1
        injection this with h
        injection h
      have hq : q' = q := by
        have := h2'.symm.trans h2
        injection this with h
        injection h
      have hreas : reas' = reas := by
        have := h3'.symm.trans h3
        injection this with h
        injection h
      subst hc; subst hq; subst hreas
      refine ⟨hok, ?_, ?_, ?_⟩
      · intro hlt
        rw [min_eq_right (le_of_lt (lt_of_lt_of_le hlt zero_le_one)),
          max_eq_left (le_of_lt hlt)]
      · intro hgt
        rw [min_eq_left (le_of_lt hgt), max_eq_right zero_le_one]
      · intro hq0 hq1
        rw [min_eq_right hq1, max_eq_right hq0]
    · rcases hbad with hbc | hbq | hbr
      · exact absurd ⟨c, h1⟩ hbc
      · exact absurd ⟨q, h2⟩ hbq
      · exact absurd ⟨reas, h3⟩ hbr

/-- C5 witness: the spec's concrete example — a response with confidence 1.5
is clamped to 1.0. -/
theorem parseGeminiResponse_confidence_clamped_witness :
    parseGeminiResponse jsonParseFixGemini invoicesText = .ok ⟨"Invoices", 1, "r"⟩ := by
  have h := (parseGeminiResponse_confidence_clamped jsonParseFixGemini invoicesText).2
    invoicesText invoicesVal "Invoices" 1.5 "r" (by rfl) (by rfl) (by rfl) (by rfl) (by rfl)
  have hc : max 0 (min 1 (1.5 : Rat)) = 1 := by
    rw [min_eq_left (by norm_num), max_eq_right (by norm_num)]
  rw [hc] at h
  exact h.1

/-- C6: a field counts as missing exactly when its value is absent, null, or
the empty string — numbers and booleans, including 0 and false, are present;
on any missing field the validator raises a validation failure whose message
comma-joins all missing fields in required-list order and whose structured
field reference is the first missing one; on success it returns unit and
raises nothing. -/
theorem validateRequiredFields_spec (data : List (String × JsonValue))
    (requiredFields : List String) :
    (∀ f, isMissingField data f = true ↔
      (lookupLast f data = none ∨ lookupLast f data = some .null ∨
        lookupLast f data = some (.str ""))) ∧
    (∀ f q, lookupLast f data = some (.num q) → isMissingField data f = false) ∧
    (∀ f b, lookupLast f data = some (.bool b) → isMissingField data f = false) ∧
    (requiredFields.filter (isMissingField data) = [] →
      validateRequiredFields data requiredFields = .ok ()) ∧
    (∀ m ms, requiredFields.filter (isMissingField data) = m :: ms →
      validateRequiredFields data requiredFields =
        .error (.validationError
          ("Missing required fields: " ++ String.intercalate ", " (m :: ms))
          (some m))) := by
  refine ⟨?_, ?_, ?_, ?_, ?_⟩
  · intro f
    unfold isMissingField
    rcases h : lookupLast f data with _ | v
    · simp
    · rcases v with s | q | b | _ | a | o <;> simp
  · intro f q h
    unfold isMissingField
    rw [h]
  · intro f b h
    unfold isMissingField
    rw [h]
  · intro h
    simp [validateRequiredFields, h]
  · intro m ms h
    simp [validateRequiredFields, h]

/-- C6 witness: the spec's concrete example — data with a present "a" and no
"b", required list ["a", "b"], fails naming exactly "b" with field "b". -/
theorem validateRequiredFields_spec_witness :
    validateRequiredFields [("a", .str "x")] ["a", "b"] =
      .error (.validationError "Missing required fields: b" (some "b")) :=
  (validateRequiredFields_spec [("a", .str "x")] ["a", "b"]).2.2.2.2 "b" [] (by rfl)

/-- C7: when every required entry resolves truthily (directly or under the
GOOGLE_CLOUD_ prefix) the resolver returns exactly the truthily-resolved
entries in request order — non-required entries that fail to resolve are
omitted without error — and when any required entry resolves to nothing the
whole call fails with a validation failure comma-joining all missing names
in request order, returning no partial map. -/
theorem getEnvironmentVariables_spec (env : String → Option String)
    (envVars : List (String × Bool)) :
    ((envVars.filter (fun p =>
        !truthyStr (jsOrString (env p.1) (env ("GOOGLE_CLOUD_" ++ p.1))) && p.2)).map
          (fun p => p.1) = [] →
      getEnvironmentVariables env envVars =
        .ok (envVars.filterMap (fun p =>
          match jsOrString (env p.1) (env ("GOOGLE_CLOUD_" ++ p.1)) with
          | some v => if v = "" then none else some (p.1, v)
          | none => none))) ∧
    (∀ m ms, (envVars.filter (fun p =>
        !truthyStr (jsOrString (env p.1) (env ("GOOGLE_CLOUD_" ++ p.1))) && p.2)).map
          (fun p => p.1) = m :: ms →
      getEnvironmentVariables env envVars =
        .error (.validationError
          ("Missing required environment variables: " ++
            String.intercalate ", " (m :: ms))
          none)) := by
  have hmiss : ((envVars.map (fun p =>
        (p.1, p.2, jsOrString (env p.1) (env ("GOOGLE_CLOUD_" ++ p.1))))).filter
          (fun e => !truthyStr e.2.2 && e.2.1)).map (fun e => e.1) =
      (envVars.filter (fun p =>
        !truthyStr (jsOrString (env p.1) (env ("GOOGLE_CLOUD_" ++ p.1))) && p.2)).map
          (fun p => p.1) := by
    rw [List.filter_map, List.map_map]
    rfl
  have hres : (envVars.map (fun p =>
        (p.1, p.2, jsOrString (env p.1) (env ("GOOGLE_CLOUD_" ++ p.1))))).filterMap
          (fun e => match e.2.2 with
            | some v => if v = "" then none else some (e.1, v)
            | none => none) =
      envVars.filterMap (fun p =>
        match jsOrString (env p.1) (env ("GOOGLE_CLOUD_" ++ p.1)) with
        | some v => if v = "" then none else some (p.1, v)
        | none => none) := by
    rw [List.filterMap_map]
    rfl
  constructor
  · intro h
    simp only [getEnvironmentVariables]
    rw [hmiss, hres, h]
    rfl
  · intro m ms h
    simp only [getEnvironmentVariables]
    rw [hmiss, h]
    rfl

/-- C7 witness: the spec's concrete example — environment with FOO = "x",
request FOO required and BAR optional, yields exactly FOO with BAR omitted
and no error. -/
theorem getEnvironmentVariables_spec_witness :
    getEnvironmentVariables (fun n => if n = "FOO" then some "x" else none)
        [("FOO", true), ("BAR", false)] = .ok [("FOO", "x")] :=
  (getEnvironmentVariables_spec (fun n => if n = "FOO" then some "x" else none)
    [("FOO", true), ("BAR", false)]).1 (by rfl)

/-- C9: the error normalizer is total by construction — every thrown value
with any context label yields an error-context-type record carrying that
context — and any value that is not a recognized Error shape yields exactly
the fixed sentinels "Unknown error occurred" and "UnknownError". -/
theorem createErrorResponse_total (e : Thrown) (context : String) :
    (createErrorResponse e context).context = context ∧
    (∀ v : JsonValue, createErrorResponse (.plainValue v) context =
      ⟨"Unknown error occurred", context, "UnknownError"⟩) := by
  constructor
  · cases e <;> rfl
  · intro v
    rfl

end AutoNyan
